import Mathlib

/-!
# Task list component (`src/pages/index.jsx`)

A shallow embedding of the `TodoList` component: its React state, the
browser storage slot it mirrors the collection into, the remote calls it
issues, and the handlers `fetchTodos`, `addTodo`, `deleteTodo`,
`toggleComplete`, `saveEdit`, together with the two `useEffect` bodies.

Modelling conventions.
* A task is a record with the four fields the remote endpoint serves. Ids
  and page numbers are integers. The one addition on ids, at line 93, is
  binary64 addition: `jsAdd` rounds the exact sum to the nearest binary64
  value, so it is exact up to magnitude `2 ^ 53` and not beyond.
* The limits of the engine and of the browser storage are a parameter
  `Engine`: the number of arguments one call accepts (a spread of a longer
  array throws a `RangeError`) and which values the storage slot accepts
  (`setItem` throws when the quota is exceeded or storage is disabled).
* `JSON.stringify` and `JSON.parse` are platform functions; they are taken
  as a parameter `JSONApi`. A parse that throws is an `Except.error`
  carrying the message of the thrown `SyntaxError`.
* A handler receives the outcome of the one remote call it may issue as an
  argument of type `Fetch`; every call actually issued is appended to the
  `requests` log of the state.
* The three-second timer that hides a notification is not modelled.
-/

namespace TodoList

/-! ## Data model -/

/-- A task as served by the remote endpoint and stored in the cache. -/
structure Todo where
  userId : Int
  id : Int
  title : String
  completed : Bool
deriving DecidableEq, Repr

/-- The `notification` state object (index.jsx line 13); `shown` is its
`show` field. -/
structure Notification where
  shown : Bool
  message : String
  type : String
deriving DecidableEq, Repr

/-- The JSON body of a `PUT`: the spread of the task found in the visible
slice (no field at all when `find` returned `undefined`) with one field
overridden. -/
structure PutBody where
  userId : Option Int
  id : Option Int
  title : Option String
  completed : Option Bool
deriving DecidableEq, Repr

/-- The remote calls the component issues. -/
inductive Request where
  | getTodos
  | postTodo (title : String) (userId : Int) (completed : Bool)
  | putTodo (id : Int) (body : PutBody)
  | deleteTodo (id : Int)
deriving DecidableEq, Repr

/-- Outcome of `await fetch(...)` followed, where the handler reads it, by
`await response.json()`: the fetch promise rejects with a message, or it
resolves to a response with an `ok` flag and a body. -/
inductive Fetch (α : Type) where
  | rejected (message : String)
  | resolved (ok : Bool) (json : Except String α)

/-- The platform functions `JSON.stringify` and `JSON.parse`, restricted to
task lists. -/
structure JSONApi where
  stringify : List Todo → String
  parse : String → Except String (List Todo)

/-- Limits of the JavaScript engine and of the browser storage. A call with
more than `maxArguments` arguments throws a `RangeError` with message
`rangeErrorMessage`; `localStorage.setItem` stores the values for which
`storageAccepts` holds and throws with message `quotaErrorMessage` on the
others. -/
structure Engine where
  maxArguments : Nat
  rangeErrorMessage : String
  storageAccepts : String → Bool
  quotaErrorMessage : String

/-- The component state (index.jsx lines 5-15) together with the part of
the environment the handlers touch: the `todos` slot of `localStorage`, the
log of remote calls issued, and the console. -/
structure State where
  allTodos : List Todo
  todos : List Todo
  newTodoTitle : String
  isLoading : Bool
  isPageLoading : Bool
  error : Option String
  editingId : Option Int
  editText : String
  notification : Notification
  currentPage : Int
  localStorage : Option String
  requests : List Request
  console : List String
deriving DecidableEq, Repr

/-- The value of `itemsPerPage` (line 15); it has no setter. -/
def itemsPerPage : Int := 5

/-- The state after `useState` initialisation, with the given content of the
storage slot. -/
def initialState (stored : Option String) : State :=
  { allTodos := []
    todos := []
    newTodoTitle := ""
    isLoading := true
    isPageLoading := true
    error := none
    editingId := none
    editText := ""
    notification := { shown := false, message := "", type := "" }
    currentPage := 1
    localStorage := stored
    requests := []
    console := [] }

/-! ## Platform helpers -/

/-- `Array.prototype.slice(start, end)` on integer arguments: a negative
index counts from the end, both indices are clamped to `[0, length]`. -/
def jsSlice {α : Type} (xs : List α) (start stop : Int) : List α :=
  let len : Int := xs.length
  let k : Int := if start < 0 then max (len + start) 0 else min start len
  let final : Int := if stop < 0 then max (len + stop) 0 else min stop len
  (xs.drop k.toNat).take (final - k).toNat

/-- White space and line terminators removed by `String.prototype.trim`. -/
def jsIsWhiteSpace (c : Char) : Bool :=
  let n := c.toNat
  n == 0x09 || n == 0x0A || n == 0x0B || n == 0x0C || n == 0x0D || n == 0x20
    || n == 0xA0 || n == 0x1680 || (0x2000 ≤ n && n ≤ 0x200A)
    || n == 0x2028 || n == 0x2029 || n == 0x202F || n == 0x205F
    || n == 0x3000 || n == 0xFEFF

/-- `String.prototype.trim`. -/
def jsTrim (s : String) : String :=
  String.mk ((s.data.dropWhile jsIsWhiteSpace).rdropWhile jsIsWhiteSpace)

/-- Truthiness of a string value: only the empty string is falsy. -/
def truthy (s : String) : Bool := s != ""

/-- `Math.max(...xs)` for a non-empty argument list (`x` is the first
argument) that the engine accepts; the length check is made by the caller
`nextId`. -/
def mathMax (x : Int) (xs : List Int) : Int := xs.foldl max x

/-- Number of low bits a natural number has beyond the 53 bits of a binary64
significand (`fuel` bounds the number of halvings). -/
def excessBits : Nat → Nat → Nat
  | 0, _ => 0
  | fuel + 1, m => if m < 2 ^ 53 then 0 else excessBits fuel (m / 2) + 1

/-- The binary64 value nearest to an integer, ties going to the even
significand. Integers of magnitude up to `2 ^ 53` are binary64 values
themselves. (Magnitudes beyond the binary64 range, which would round to an
infinity, are not values of a JavaScript number and are not meant.) -/
def roundToDouble (z : Int) : Int :=
  let m := z.natAbs
  if m ≤ 2 ^ 53 then z
  else
    let e := excessBits m m
    let q := m / 2 ^ e
    let r := m % 2 ^ e
    let half := 2 ^ (e - 1)
    let q1 := if r < half then q else if half < r then q + 1
      else if q % 2 = 0 then q else q + 1
    z.sign * ((q1 * 2 ^ e : Nat) : Int)

/-- The `+` of two integer-valued numbers: the exact sum rounded to
binary64. -/
def jsAdd (a b : Int) : Int := roundToDouble (a + b)

/-! ## Effects and handlers -/

/-- `showNotification` (lines 203-208), without the hiding timer. -/
def showNotification (message type : String) (s : State) : State :=
  { s with notification := { shown := true, message := message, type := type } }

/-- The visible slice for page `page` of `all` (lines 32-34). -/
def pageSlice (all : List Todo) (page : Int) : List Todo :=
  let indexOfLastItem := page * itemsPerPage
  let indexOfFirstItem := indexOfLastItem - itemsPerPage
  jsSlice all indexOfFirstItem indexOfLastItem

/-- The body of the effect on `[currentPage, allTodos, itemsPerPage]`
(lines 31-36). React runs it after mount and after every render in which
`allTodos` or `currentPage` received a new value. -/
def pageEffect (s : State) : State :=
  { s with todos := pageSlice s.allTodos s.currentPage, isPageLoading := false }

/-- The first effect up to its call of `fetchTodos` (lines 18-26): a stored
value that parses becomes the full collection, one that does not parse is
reported on the console only. -/
def mountEffect (J : JSONApi) (s : State) : State :=
  match s.localStorage with
  | some savedTodos =>
    if truthy savedTodos then
      match J.parse savedTodos with
      | .ok parsedTodos => { s with allTodos := parsedTodos }
      | .error _ => { s with console := s.console ++ ["Failed to parse saved todos"] }
    else s
  | none => s

/-- The `catch` and `finally` blocks of `fetchTodos` (lines 60-66). -/
def fetchTodosFailed (message : String) (s : State) : State :=
  { showNotification "Failed to load todos" "error" { s with error := some message } with
    isLoading := false, isPageLoading := false }

/-- Lines 54-59 of `fetchTodos`: the remote read, issued when the cache gave
no non-empty list. The fetched list is set as the collection before the
cache write at line 59, so a write that throws leaves the collection set. -/
def fetchRemote (J : JSONApi) (E : Engine) (resp : Fetch (List Todo)) (s : State) : State :=
  let s1 := { s with requests := s.requests ++ [Request.getTodos] }
  match resp with
  | .rejected message => fetchTodosFailed message s1
  | .resolved false _ => fetchTodosFailed "Failed to fetch todos" s1
  | .resolved true (.error message) => fetchTodosFailed message s1
  | .resolved true (.ok data) =>
    let s2 := { s1 with allTodos := data }
    if E.storageAccepts (J.stringify data) then
      { s2 with localStorage := some (J.stringify data),
                isLoading := false, isPageLoading := false }
    else fetchTodosFailed E.quotaErrorMessage s2

/-- `fetchTodos` (lines 38-67). The parse of the stored value at line 45
sits inside the `try`, so a parse that throws lands in the `catch`. -/
def fetchTodos (J : JSONApi) (E : Engine) (resp : Fetch (List Todo)) (s : State) : State :=
  let s1 := { s with isLoading := true, isPageLoading := true, error := none }
  match s1.localStorage with
  | some savedTodos =>
    if truthy savedTodos then
      match J.parse savedTodos with
      | .ok parsedTodos =>
        if parsedTodos.length > 0 then
          { s1 with allTodos := parsedTodos, isLoading := false, isPageLoading := false }
        else fetchRemote J E resp s1
      | .error message => fetchTodosFailed message s1
    else fetchRemote J E resp s1
  | none => fetchRemote J E resp s1

/-- What the component has done once the mount effects and the renders they
cause have settled: the first effect (which calls `fetchTodos`), then the
page effect on the resulting collection. -/
def startup (J : JSONApi) (E : Engine) (stored : Option String)
    (resp : Fetch (List Todo)) : State :=
  pageEffect (fetchTodos J E resp (mountEffect J (initialState stored)))

/-- The value of the expression at line 93 when it does not throw:
`allTodos.length > 0 ? Math.max(...allTodos.map(t => t.id)) + 1 : 1`. -/
def computedId (allTodos : List Todo) : Int :=
  match allTodos.map (fun t => t.id) with
  | [] => 1
  | x :: xs => jsAdd (mathMax x xs) 1

/-- The id given to a created task (line 93). The ids are spread into the
argument list of `Math.max`, which throws a `RangeError` when there are more
of them than the engine accepts. -/
def nextId (E : Engine) (allTodos : List Todo) : Except String Int :=
  if allTodos.length > E.maxArguments then .error E.rangeErrorMessage
  else .ok (computedId allTodos)

/-- The `catch` and `finally` blocks shared in shape by the four mutations:
the error message is stored, a failure notification is shown with the given
text, the loading flag is cleared. -/
def mutationFailed (message toast : String) (s : State) : State :=
  { showNotification toast "error" { s with error := some message } with isLoading := false }

/-- `addTodo` (lines 69-110). Line 93 sits inside the `try`, so a throw of
`Math.max` lands in the `catch` before anything is written. The collection
is set at line 97 before the cache write at line 98, so a write that throws
leaves the collection set and skips lines 100-103. The fresh `allTodos`
array makes React run the page effect again. -/
def addTodo (J : JSONApi) (E : Engine) (resp : Fetch Todo) (s : State) : State :=
  if !truthy (jsTrim s.newTodoTitle) then s
  else
    let s1 := { s with isLoading := true,
                       requests := s.requests ++ [Request.postTodo s.newTodoTitle 1 false] }
    match resp with
    | .rejected message => mutationFailed message "Failed to add todo" s1
    | .resolved false _ => mutationFailed "Failed to add todo" "Failed to add todo" s1
    | .resolved true (.error message) => mutationFailed message "Failed to add todo" s1
    | .resolved true (.ok newTodo) =>
      match nextId E s.allTodos with
      | .error message => mutationFailed message "Failed to add todo" s1
      | .ok id =>
        let updatedTodos := { newTodo with id := id } :: s.allTodos
        let s2 := { s1 with allTodos := updatedTodos }
        if E.storageAccepts (J.stringify updatedTodos) then
          let s3 := { s2 with localStorage := some (J.stringify updatedTodos),
                              newTodoTitle := "" }
          let s4 := showNotification "Todo added successfully!" "success" s3
          pageEffect { s4 with currentPage := 1, isLoading := false }
        else pageEffect (mutationFailed E.quotaErrorMessage "Failed to add todo" s2)

/-- `deleteTodo` (lines 112-129). Only `todos` is written, which is not a
dependency of the page effect. -/
def deleteTodo (resp : Fetch Unit) (id : Int) (s : State) : State :=
  let s1 := { s with isLoading := true, requests := s.requests ++ [Request.deleteTodo id] }
  match resp with
  | .rejected message => mutationFailed message "Failed to delete todo" s1
  | .resolved false _ => mutationFailed "Failed to delete todo" "Failed to delete todo" s1
  | .resolved true _ =>
    let s2 := { s1 with todos := s.todos.filter (fun todo => todo.id != id) }
    { showNotification "Todo deleted successfully!" "success" s2 with isLoading := false }

/-- The object spread `...todo` of the result of `todos.find`. -/
def spread (todo : Option Todo) : PutBody :=
  match todo with
  | some t => { userId := some t.userId, id := some t.id, title := some t.title,
                completed := some t.completed }
  | none => { userId := none, id := none, title := none, completed := none }

/-- `toggleComplete` (lines 131-158); `completed` is the flag the caller
passes, the markup passes the flag of the task whose button was pressed. -/
def toggleComplete (resp : Fetch Unit) (id : Int) (completed : Bool) (s : State) : State :=
  let todo := s.todos.find? (fun t => t.id == id)
  let body := { spread todo with completed := some (!completed) }
  let s1 := { s with isLoading := true, requests := s.requests ++ [Request.putTodo id body] }
  match resp with
  | .rejected message => mutationFailed message "Failed to update todo" s1
  | .resolved false _ => mutationFailed "Failed to update todo" "Failed to update todo" s1
  | .resolved true _ =>
    let updated := s.todos.map
      (fun todo => if todo.id == id then { todo with completed := !completed } else todo)
    let s2 := { s1 with todos := updated }
    { showNotification "Todo status updated!" "success" s2 with isLoading := false }

/-- `startEditing` (lines 160-163). -/
def startEditing (id : Int) (title : String) (s : State) : State :=
  { s with editingId := some id, editText := title }

/-- `cancelEditing` (lines 165-168). -/
def cancelEditing (s : State) : State :=
  { s with editingId := none, editText := "" }

/-- `saveEdit` (lines 170-201). -/
def saveEdit (resp : Fetch Unit) (id : Int) (s : State) : State :=
  if !truthy (jsTrim s.editText) then s
  else
    let todo := s.todos.find? (fun t => t.id == id)
    let body := { spread todo with title := some s.editText }
    let s1 := { s with isLoading := true, requests := s.requests ++ [Request.putTodo id body] }
    match resp with
    | .rejected message => mutationFailed message "Failed to update todo" s1
    | .resolved false _ => mutationFailed "Failed to update todo" "Failed to update todo" s1
    | .resolved true _ =>
      let updated := s.todos.map
        (fun todo => if todo.id == id then { todo with title := s.editText } else todo)
      let s2 := { s1 with todos := updated, editingId := none, editText := "" }
      { showNotification "Todo updated successfully!" "success" s2 with isLoading := false }

/-! ## Frame predicate -/

/-- The part of the state a failed mutation must leave alone: the full
collection, the visible slice, the persisted cache, the current page and
the editing state. -/
def Unchanged (s t : State) : Prop :=
  t.allTodos = s.allTodos ∧ t.todos = s.todos ∧ t.localStorage = s.localStorage
    ∧ t.currentPage = s.currentPage ∧ t.editingId = s.editingId ∧ t.editText = s.editText

/-! ## A concrete codec

`JSON.stringify` and `JSON.parse` enter the development as a parameter. The
codec below is a small tagged text format for task lists; it satisfies the
two laws assumed of the platform functions (a stringified list parses back
to itself, and is never the empty string) and serves to instantiate the
results at concrete inputs. -/

namespace Codec

/-- Binary digits, least significant first, closed by a dot (`fuel` bounds
the number of digits). -/
def encNatAux : Nat → Nat → List Char
  | 0, _ => ['.']
  | fuel + 1, n =>
    if n = 0 then ['.']
    else (if n % 2 = 1 then '1' else '0') :: encNatAux fuel (n / 2)

/-- Binary numeral of a natural number. -/
def encNat (n : Nat) : List Char := encNatAux n n

/-- Reads a binary numeral and returns the rest of the input. -/
def decNat : List Char → Option (Nat × List Char)
  | '.' :: cs => some (0, cs)
  | '0' :: cs => (decNat cs).map (fun p => (2 * p.1, p.2))
  | '1' :: cs => (decNat cs).map (fun p => (2 * p.1 + 1, p.2))
  | _ => none

/-- Sign tag followed by a binary numeral. -/
def encInt : Int → List Char
  | Int.ofNat n => 'p' :: encNat n
  | Int.negSucc n => 'm' :: encNat n

/-- Reads an integer and returns the rest of the input. -/
def decInt : List Char → Option (Int × List Char)
  | 'p' :: cs => (decNat cs).map (fun p => (Int.ofNat p.1, p.2))
  | 'm' :: cs => (decNat cs).map (fun p => (Int.negSucc p.1, p.2))
  | _ => none

/-- Each character preceded by `c`, the text closed by `e`. -/
def encChars : List Char → List Char
  | [] => ['e']
  | c :: cs => 'c' :: c :: encChars cs

/-- Reads a text and returns the rest of the input. -/
def decChars : List Char → Option (List Char × List Char)
  | 'e' :: cs => some ([], cs)
  | 'c' :: c :: cs => (decChars cs).map (fun p => (c :: p.1, p.2))
  | _ => none

/-- One character per truth value. -/
def encBool (b : Bool) : List Char := if b then ['t'] else ['f']

/-- Reads a truth value and returns the rest of the input. -/
def decBool : List Char → Option (Bool × List Char)
  | 't' :: cs => some (true, cs)
  | 'f' :: cs => some (false, cs)
  | _ => none

/-- The four fields of a task in declaration order. -/
def encTodo (t : Todo) : List Char :=
  encInt t.userId ++ (encInt t.id ++ (encChars t.title.data ++ encBool t.completed))

/-- Reads one task and returns the rest of the input. -/
def decTodo (cs : List Char) : Option (Todo × List Char) :=
  match decInt cs with
  | none => none
  | some (u, r1) =>
    match decInt r1 with
    | none => none
    | some (i, r2) =>
      match decChars r2 with
      | none => none
      | some (t, r3) =>
        match decBool r3 with
        | none => none
        | some (b, r4) => some ({ userId := u, id := i, title := String.mk t, completed := b }, r4)

/-- The tasks one after the other. -/
def encTodos : List Todo → List Char
  | [] => []
  | t :: ts => encTodo t ++ encTodos ts

/-- Reads the given number of tasks and returns the rest of the input. -/
def decTodos : Nat → List Char → Option (List Todo × List Char)
  | 0, cs => some ([], cs)
  | n + 1, cs =>
    match decTodo cs with
    | none => none
    | some (t, r) => (decTodos n r).map (fun p => (t :: p.1, p.2))

/-- The number of tasks, then the tasks. -/
def stringify (xs : List Todo) : String :=
  String.mk (encNat xs.length ++ encTodos xs)

/-- Inverse of `stringify`; input that is not the image of a list, or has
characters left over, is a syntax error. -/
def parse (s : String) : Except String (List Todo) :=
  match decNat s.data with
  | none => .error "Unexpected token"
  | some (n, r) =>
    match decTodos n r with
    | some (ts, []) => .ok ts
    | _ => .error "Unexpected token"

end Codec

/-- The concrete codec as a `JSONApi`. -/
def tagCodec : JSONApi :=
  { stringify := Codec.stringify, parse := Codec.parse }

/-- A concrete engine: calls accept up to 65536 arguments and the storage
slot accepts values of up to 5242880 characters. -/
def refEngine : Engine :=
  { maxArguments := 65536
    rangeErrorMessage := "Maximum call stack size exceeded"
    storageAccepts := fun v => decide (v.length ≤ 5242880)
    quotaErrorMessage := "The quota has been exceeded." }

/-- The concrete engine in a browser whose storage is full or disabled:
every write throws. -/
def fullStorageEngine : Engine :=
  { refEngine with storageAccepts := fun _ => false }

/-! ## The codec laws -/

namespace Codec

theorem decNat_encNatAux (fuel n : Nat) (h : n ≤ fuel) (r : List Char) :
    decNat (encNatAux fuel n ++ r) = some (n, r) := by
  induction fuel generalizing n with
  | zero =>
    have : n = 0 := by omega
    subst this; rfl
  | succ fuel ih =>
    by_cases h0 : n = 0
    · subst h0; rfl
    · have hh : n / 2 ≤ fuel := by omega
      by_cases h1 : n % 2 = 1
      · simp only [encNatAux, h0, h1, if_true, if_false, List.cons_append, decNat, ih _ hh,
          Option.map_some']
        congr 2; omega
      · simp only [encNatAux, h0, h1, if_false, List.cons_append, decNat, ih _ hh,
          Option.map_some']
        congr 2; omega

theorem decNat_encNat (n : Nat) (r : List Char) : decNat (encNat n ++ r) = some (n, r) :=
  decNat_encNatAux n n (Nat.le_refl n) r

theorem encNatAux_ne_nil (fuel n : Nat) : encNatAux fuel n ≠ [] := by
  cases fuel with
  | zero => simp [encNatAux]
  | succ fuel => by_cases h0 : n = 0 <;> simp [encNatAux, h0]

theorem decInt_encInt (i : Int) (r : List Char) : decInt (encInt i ++ r) = some (i, r) := by
  cases i <;> simp [encInt, decInt, decNat_encNat]

theorem decChars_encChars (cs r : List Char) :
    decChars (encChars cs ++ r) = some (cs, r) := by
  induction cs with
  | nil => rfl
  | cons c cs ih => simp [encChars, decChars, ih]

theorem decBool_encBool (b : Bool) (r : List Char) : decBool (encBool b ++ r) = some (b, r) := by
  cases b <;> rfl

theorem decTodo_encTodo (t : Todo) (r : List Char) : decTodo (encTodo t ++ r) = some (t, r) := by
  simp [decTodo, encTodo, List.append_assoc, decInt_encInt, decChars_encChars, decBool_encBool]

theorem decTodos_encTodos (xs : List Todo) (r : List Char) :
    decTodos xs.length (encTodos xs ++ r) = some (xs, r) := by
  induction xs with
  | nil => rfl
  | cons t ts ih => simp [encTodos, decTodos, List.append_assoc, decTodo_encTodo, ih]

theorem parse_stringify (xs : List Todo) : parse (stringify xs) = .ok xs := by
  have h := decTodos_encTodos xs []
  rw [List.append_nil] at h
  simp [parse, stringify, decNat_encNat, h]

theorem stringify_ne_empty (xs : List Todo) : stringify xs ≠ "" := by
  intro h
  have h2 := congrArg String.data h
  simp only [stringify, encNat] at h2
  have h3 := encNatAux_ne_nil xs.length xs.length
  cases h4 : encNatAux xs.length xs.length with
  | nil => exact h3 h4
  | cons c cs => rw [h4] at h2; simp at h2

end Codec

theorem tagCodec_parse_stringify (xs : List Todo) :
    tagCodec.parse (tagCodec.stringify xs) = .ok xs := Codec.parse_stringify xs

theorem tagCodec_stringify_ne_empty (xs : List Todo) : tagCodec.stringify xs ≠ "" :=
  Codec.stringify_ne_empty xs

/-! ## Trimming -/

theorem jsTrim_eq_empty_of_blank (s : String)
    (h : ∀ c ∈ s.data, jsIsWhiteSpace c = true) : jsTrim s = "" := by
  have : s.data.dropWhile jsIsWhiteSpace = [] := by
    rw [List.dropWhile_eq_nil_iff]; exact h
  unfold jsTrim
  rw [this]
  rfl

theorem truthy_eq_true_iff (s : String) : truthy s = true ↔ s ≠ "" := by
  simp [truthy]

/-! ## Ids -/

theorem mathMax_ge_init (x : Int) (xs : List Int) : x ≤ mathMax x xs := by
  induction xs generalizing x with
  | nil => simp [mathMax]
  | cons y ys ih =>
    have := ih (max x y)
    simp only [mathMax, List.foldl_cons] at this ⊢
    exact le_trans (le_max_left x y) this

theorem mathMax_ge_mem (x : Int) (xs : List Int) (y : Int) (hy : y ∈ xs) :
    y ≤ mathMax x xs := by
  induction xs generalizing x with
  | nil => cases hy
  | cons z zs ih =>
    simp only [mathMax, List.foldl_cons]
    rcases List.mem_cons.mp hy with rfl | h
    · exact le_trans (le_max_right x y) (mathMax_ge_init _ zs)
    · exact ih (max x z) h

theorem mathMax_mem (x : Int) (xs : List Int) : mathMax x xs ∈ x :: xs := by
  induction xs generalizing x with
  | nil => simp [mathMax]
  | cons z zs ih =>
    simp only [mathMax, List.foldl_cons]
    have h := ih (max x z)
    simp only [mathMax] at h
    rcases List.mem_cons.mp h with h | h
    · rw [h]
      rcases max_choice x z with e | e <;> rw [e] <;> simp
    · exact List.mem_cons_of_mem _ (List.mem_cons_of_mem _ h)

theorem roundToDouble_of_le (z : Int) (h : z.natAbs ≤ 2 ^ 53) : roundToDouble z = z := by
  unfold roundToDouble
  exact if_pos h

theorem computedId_nil : computedId [] = 1 := rfl

theorem computedId_of_safe (all : List Todo) (x : Int) (xs : List Int)
    (hs : ∀ t ∈ all, t.id.natAbs < 2 ^ 53) (h : all.map (fun t => t.id) = x :: xs) :
    computedId all = mathMax x xs + 1 := by
  have hm := mathMax_mem x xs
  rw [← h, List.mem_map] at hm
  obtain ⟨t, ht, e⟩ := hm
  have hb := hs t ht
  unfold computedId
  rw [h]
  simp only [jsAdd]
  apply roundToDouble_of_le
  rw [← e]
  omega

theorem lt_computedId (all : List Todo) (hs : ∀ t ∈ all, t.id.natAbs < 2 ^ 53)
    (t : Todo) (ht : t ∈ all) : t.id < computedId all := by
  cases h : all.map (fun t => t.id) with
  | nil =>
    rw [List.map_eq_nil_iff] at h
    rw [h] at ht; cases ht
  | cons x xs =>
    have hm : t.id ∈ x :: xs := by rw [← h]; exact List.mem_map_of_mem _ ht
    have : t.id ≤ mathMax x xs := by
      rcases List.mem_cons.mp hm with e | e
      · rw [e]; exact mathMax_ge_init x xs
      · exact mathMax_ge_mem x xs _ e
    rw [computedId_of_safe all x xs hs h]
    omega

theorem computedId_eq_succ_mem (all : List Todo) (hs : ∀ t ∈ all, t.id.natAbs < 2 ^ 53)
    (h : all ≠ []) : ∃ t ∈ all, computedId all = t.id + 1 := by
  cases h' : all.map (fun t => t.id) with
  | nil => rw [List.map_eq_nil_iff] at h'; exact absurd h' h
  | cons x xs =>
    have hm := mathMax_mem x xs
    rw [← h', List.mem_map] at hm
    obtain ⟨t, ht, e⟩ := hm
    refine ⟨t, ht, ?_⟩
    rw [computedId_of_safe all x xs hs h']
    rw [e]

theorem nextId_of_le (E : Engine) (all : List Todo) (h : all.length ≤ E.maxArguments) :
    nextId E all = .ok (computedId all) := by
  have : ¬ (all.length > E.maxArguments) := by omega
  simp [nextId, this]

theorem nextId_of_gt (E : Engine) (all : List Todo) (h : E.maxArguments < all.length) :
    nextId E all = .error E.rangeErrorMessage := by
  simp [nextId, h]

/-! ## The pager -/

theorem jsSlice_nonneg {α : Type} (xs : List α) (a n : Nat) :
    jsSlice xs (a : Int) ((a : Int) + n) = (xs.drop a).take n := by
  unfold jsSlice
  have h1 : ¬ ((a : Int) < 0) := by omega
  have h2 : ¬ ((a : Int) + n < 0) := by omega
  simp only [h1, h2, if_false]
  by_cases h : a ≤ xs.length
  · have hk : (min (a : Int) (xs.length : Int)).toNat = a := by omega
    rw [hk]
    by_cases h' : a + n ≤ xs.length
    · have : (min ((a : Int) + n) (xs.length : Int) - min (a : Int) (xs.length : Int)).toNat = n := by
        omega
      rw [this]
    · have : (min ((a : Int) + n) (xs.length : Int) - min (a : Int) (xs.length : Int)).toNat
          = xs.length - a := by omega
      rw [this]
      have hl : (xs.drop a).length = xs.length - a := by simp
      rw [List.take_of_length_le (by omega), List.take_of_length_le (by omega)]
  · have hk : (min (a : Int) (xs.length : Int)).toNat = xs.length := by omega
    rw [hk]
    have e1 : xs.drop xs.length = [] := by simp
    have e2 : xs.drop a = [] := List.drop_of_length_le (by omega)
    rw [e1, e2]; simp

theorem pageSlice_eq (xs : List Todo) (p : Int) (hp : 1 ≤ p) :
    pageSlice xs p = (xs.drop ((p - 1) * 5).toNat).take 5 := by
  unfold pageSlice itemsPerPage
  have e1 : p * 5 - 5 = (((p - 1) * 5).toNat : Int) := by omega
  have e2 : p * 5 = (((p - 1) * 5).toNat : Int) + (5 : Nat) := by omega
  simp only []
  rw [e2]
  have e3 : (((p - 1) * 5).toNat : Int) + (5 : Nat) - 5 = (((p - 1) * 5).toNat : Int) := by omega
  rw [e3]
  exact jsSlice_nonneg xs _ 5

theorem flatten_pages_take {α : Type} (xs : List α) (n : Nat) :
    ((List.range n).map (fun i => (xs.drop (i * 5)).take 5)).flatten = xs.take (n * 5) := by
  induction n with
  | zero => simp
  | succ n ih =>
    rw [List.range_succ, List.map_append, List.flatten_append, ih]
    simp only [List.map_cons, List.map_nil, List.flatten_cons, List.flatten_nil, List.append_nil]
    rw [Nat.succ_mul, List.take_add]


/-- C1. For every collection, of any length `N` including `0`, the page
slices the pager computes for pages `1, 2, ..., ceil(N/5)`, concatenated in
that order, are exactly the collection: nothing is dropped, duplicated or
moved. -/
theorem pages_concat_eq (xs : List Todo) :
    ((List.range ((xs.length + 4) / 5)).map
      (fun i : Nat => pageSlice xs ((i : Int) + 1))).flatten = xs := by
  have h : ∀ i : Nat, pageSlice xs ((i : Int) + 1) = (xs.drop (i * 5)).take 5 := by
    intro i
    rw [pageSlice_eq xs _ (by omega)]
    have : (((i : Int) + 1 - 1) * 5).toNat = i * 5 := by omega
    rw [this]
  simp only [h]
  rw [flatten_pages_take]
  exact List.take_of_length_le (by omega)

/-- C2. For every collection and every page number `p ≥ 1` the visible
slice is the part of the collection at indices `[(p-1)*5, p*5)`: its `i`-th
entry is entry `(p-1)*5 + i` of the collection for `i < 5` and it has no
further entry. When `(p-1)*5` is at least the length of the collection the
slice is the empty list; the pager is a total function, so no error arises. -/
theorem pageSlice_window (xs : List Todo) (p : Int) (hp : 1 ≤ p) :
    pageSlice xs p = (xs.drop ((p - 1) * 5).toNat).take 5
    ∧ (∀ i : Nat, (pageSlice xs p)[i]? =
        if i < 5 then xs[((p - 1) * 5).toNat + i]? else none)
    ∧ ((xs.length : Int) ≤ (p - 1) * 5 → pageSlice xs p = []) := by
  have e := pageSlice_eq xs p hp
  refine ⟨e, ?_, ?_⟩
  · intro i
    rw [e]
    by_cases hi : i < 5
    · simp [hi, List.getElem?_take, List.getElem?_drop]
    · simp only [hi, if_false]
      rw [List.getElem?_eq_none_iff]
      simp only [List.length_take, List.length_drop]
      omega
  · intro h
    rw [e, List.drop_of_length_le (by omega)]
    rfl

theorem pageSlice_window_witness :
    (1 : Int) ≤ 3 ∧ pageSlice [⟨1, 7, "a", false⟩] 3 = [] :=
  ⟨by decide, (pageSlice_window [⟨1, 7, "a", false⟩] 3 (by decide)).2.2 (by decide)⟩


/-! ## Mutations -/

theorem addTodo_ok_allTodos (J : JSONApi) (E : Engine) (s : State) (newTodo : Todo)
    (h : jsTrim s.newTodoTitle ≠ "") (hlen : s.allTodos.length ≤ E.maxArguments) :
    (addTodo J E (.resolved true (.ok newTodo)) s).allTodos
      = { newTodo with id := computedId s.allTodos } :: s.allTodos := by
  have ht : truthy (jsTrim s.newTodoTitle) = true := (truthy_eq_true_iff _).2 h
  by_cases hq : E.storageAccepts
      (J.stringify ({ newTodo with id := computedId s.allTodos } :: s.allTodos)) = true
  · simp [addTodo, ht, nextId_of_le E _ hlen, hq, pageEffect, showNotification]
  · simp [addTodo, ht, nextId_of_le E _ hlen, hq, pageEffect, showNotification, mutationFailed]

theorem addTodo_too_long (J : JSONApi) (E : Engine) (s : State) (newTodo : Todo)
    (h : jsTrim s.newTodoTitle ≠ "") (hlen : E.maxArguments < s.allTodos.length) :
    (addTodo J E (.resolved true (.ok newTodo)) s).allTodos = s.allTodos
    ∧ (addTodo J E (.resolved true (.ok newTodo)) s).localStorage = s.localStorage
    ∧ (addTodo J E (.resolved true (.ok newTodo)) s).error = some E.rangeErrorMessage := by
  have ht : truthy (jsTrim s.newTodoTitle) = true := (truthy_eq_true_iff _).2 h
  simp [addTodo, ht, nextId_of_gt E _ hlen, showNotification, mutationFailed]

/-- C3, as stated, fails in two ways. With a collection of 130000 items the
spread into `Math.max` throws, so after a successful create call the
collection is what it was and nothing is prepended. With a storage that
refuses the write, the cache is not written. -/
theorem addTodo_not_prepended :
    ((addTodo tagCodec refEngine (.resolved true (.ok ⟨1, 201, "milk", false⟩))
        { initialState none with
          allTodos := List.replicate 130000 ⟨1, 1, "a", false⟩
          newTodoTitle := "milk" }).allTodos = List.replicate 130000 ⟨1, 1, "a", false⟩)
    ∧ ((addTodo tagCodec fullStorageEngine (.resolved true (.ok ⟨1, 201, "milk", false⟩))
        { initialState none with newTodoTitle := "milk" }).localStorage = none) := by
  constructor
  · refine (addTodo_too_long tagCodec refEngine
      { initialState none with
        allTodos := List.replicate 130000 ⟨1, 1, "a", false⟩
        newTodoTitle := "milk" } ⟨1, 201, "milk", false⟩ (by decide) ?_).1
    show refEngine.maxArguments < (List.replicate 130000 (⟨1, 1, "a", false⟩ : Todo)).length
    rw [List.length_replicate]
    decide
  · decide

/-- C3, amended. For every state whose collection has no more items than the
engine accepts as arguments of one call and whose new-task title is
non-empty after trimming, when the remote create call succeeds with body
`newTodo`, `addTodo` leaves the full collection equal to the new item (the
body with the locally computed id) followed by the old collection, so the
length grows by one; when the storage accepts the write, it writes the
stringified new collection to the cache and sets the current page to `1`. -/
theorem addTodo_success (J : JSONApi) (E : Engine) (s : State) (newTodo : Todo)
    (h : jsTrim s.newTodoTitle ≠ "") (hlen : s.allTodos.length ≤ E.maxArguments) :
    (addTodo J E (.resolved true (.ok newTodo)) s).allTodos
        = { newTodo with id := computedId s.allTodos } :: s.allTodos
    ∧ (addTodo J E (.resolved true (.ok newTodo)) s).allTodos.length = s.allTodos.length + 1
    ∧ (E.storageAccepts
          (J.stringify ({ newTodo with id := computedId s.allTodos } :: s.allTodos)) = true →
        (addTodo J E (.resolved true (.ok newTodo)) s).localStorage
            = some (J.stringify ({ newTodo with id := computedId s.allTodos } :: s.allTodos))
        ∧ (addTodo J E (.resolved true (.ok newTodo)) s).currentPage = 1) := by
  have ht : truthy (jsTrim s.newTodoTitle) = true := (truthy_eq_true_iff _).2 h
  refine ⟨?_, ?_, ?_⟩
  · by_cases hq : E.storageAccepts
        (J.stringify ({ newTodo with id := computedId s.allTodos } :: s.allTodos)) = true
    · simp [addTodo, ht, nextId_of_le E _ hlen, hq, pageEffect, showNotification]
    · simp [addTodo, ht, nextId_of_le E _ hlen, hq, pageEffect, showNotification,
        mutationFailed]
  · by_cases hq : E.storageAccepts
        (J.stringify ({ newTodo with id := computedId s.allTodos } :: s.allTodos)) = true
    · simp [addTodo, ht, nextId_of_le E _ hlen, hq, pageEffect, showNotification]
    · simp [addTodo, ht, nextId_of_le E _ hlen, hq, pageEffect, showNotification,
        mutationFailed]
  · intro hq
    simp [addTodo, ht, nextId_of_le E _ hlen, hq, pageEffect, showNotification]

theorem addTodo_success_witness :
    (addTodo tagCodec refEngine (.resolved true (.ok ⟨1, 201, "milk", false⟩))
        { initialState none with
          allTodos := [⟨1, 7, "a", false⟩, ⟨1, 3, "b", true⟩], newTodoTitle := " milk " }).allTodos
      = [⟨1, 8, "milk", false⟩, ⟨1, 7, "a", false⟩, ⟨1, 3, "b", true⟩]
    ∧ (addTodo tagCodec refEngine (.resolved true (.ok ⟨1, 201, "milk", false⟩))
        { initialState none with
          allTodos := [⟨1, 7, "a", false⟩, ⟨1, 3, "b", true⟩], newTodoTitle := " milk " }).currentPage
      = 1 :=
  ⟨(addTodo_success tagCodec refEngine
      { initialState none with
        allTodos := [⟨1, 7, "a", false⟩, ⟨1, 3, "b", true⟩], newTodoTitle := " milk " }
      ⟨1, 201, "milk", false⟩ (by decide) (by decide)).1,
   ((addTodo_success tagCodec refEngine
      { initialState none with
        allTodos := [⟨1, 7, "a", false⟩, ⟨1, 3, "b", true⟩], newTodoTitle := " milk " }
      ⟨1, 201, "milk", false⟩ (by decide) (by decide)).2.2 (by decide)).2⟩

/-- C4. For every state whose new-task title is empty or consists of white
space only, `addTodo` returns the state as it was: the log of remote calls
has no new entry and the full collection, the visible slice, the cache and
the current page are unchanged. -/
theorem addTodo_blank (J : JSONApi) (E : Engine) (resp : Fetch Todo) (s : State)
    (h : ∀ c ∈ s.newTodoTitle.data, jsIsWhiteSpace c = true) :
    addTodo J E resp s = s
    ∧ (addTodo J E resp s).requests = s.requests
    ∧ (addTodo J E resp s).allTodos = s.allTodos
    ∧ (addTodo J E resp s).todos = s.todos
    ∧ (addTodo J E resp s).localStorage = s.localStorage
    ∧ (addTodo J E resp s).currentPage = s.currentPage := by
  have ht : truthy (jsTrim s.newTodoTitle) = false := by
    rw [jsTrim_eq_empty_of_blank _ h]; rfl
  have e : addTodo J E resp s = s := by simp [addTodo, ht]
  rw [e]
  exact ⟨rfl, rfl, rfl, rfl, rfl, rfl⟩

theorem addTodo_blank_witness :
    (addTodo tagCodec refEngine (.resolved true (.ok ⟨1, 201, " \t", false⟩))
        { initialState none with newTodoTitle := " \t" }).requests
      = ({ initialState none with newTodoTitle := " \t" } : State).requests :=
  (addTodo_blank tagCodec refEngine (.resolved true (.ok ⟨1, 201, " \t", false⟩))
    { initialState none with newTodoTitle := " \t" } (by decide)).2.1

/-- C5. For every state and every id, when the remote delete call succeeds,
`deleteTodo` makes the visible slice the previous slice without the items
of that id, the others keeping their order; the full collection and the
cache are unchanged, so an item of that id in the full collection is still
there. Example: with collection and slice `[{id:1,title:"A"},{id:2,title:"B"}]`
deleting id `1` gives the slice `[{id:2,title:"B"}]` while the full
collection and the cache still hold both items. -/
theorem deleteTodo_success (J : JSONApi) (s : State) (id : Int) (json : Except String Unit) :
    ((deleteTodo (.resolved true json) id s).todos = s.todos.filter (fun t => t.id ≠ id)
      ∧ (deleteTodo (.resolved true json) id s).allTodos = s.allTodos
      ∧ (deleteTodo (.resolved true json) id s).localStorage = s.localStorage
      ∧ ∀ t ∈ s.allTodos, t.id = id → t ∈ (deleteTodo (.resolved true json) id s).allTodos)
    ∧ ((deleteTodo (.resolved true json) 1
          { initialState (some (J.stringify [⟨1, 1, "A", false⟩, ⟨1, 2, "B", false⟩])) with
            allTodos := [⟨1, 1, "A", false⟩, ⟨1, 2, "B", false⟩]
            todos := [⟨1, 1, "A", false⟩, ⟨1, 2, "B", false⟩] }).todos = [⟨1, 2, "B", false⟩]
      ∧ (deleteTodo (.resolved true json) 1
          { initialState (some (J.stringify [⟨1, 1, "A", false⟩, ⟨1, 2, "B", false⟩])) with
            allTodos := [⟨1, 1, "A", false⟩, ⟨1, 2, "B", false⟩]
            todos := [⟨1, 1, "A", false⟩, ⟨1, 2, "B", false⟩] }).allTodos
          = [⟨1, 1, "A", false⟩, ⟨1, 2, "B", false⟩]
      ∧ (deleteTodo (.resolved true json) 1
          { initialState (some (J.stringify [⟨1, 1, "A", false⟩, ⟨1, 2, "B", false⟩])) with
            allTodos := [⟨1, 1, "A", false⟩, ⟨1, 2, "B", false⟩]
            todos := [⟨1, 1, "A", false⟩, ⟨1, 2, "B", false⟩] }).localStorage
          = some (J.stringify [⟨1, 1, "A", false⟩, ⟨1, 2, "B", false⟩])) := by
  refine ⟨⟨?_, rfl, rfl, fun t ht _ => ht⟩, ?_, rfl, rfl⟩
  · simp only [deleteTodo, showNotification]
    apply List.filter_congr
    intro t _
    by_cases e : t.id = id <;> simp [e]
  · simp [deleteTodo, showNotification, initialState]

/-- C6, as stated, fails at ids of magnitude `2 ^ 53`: the only existing id
is `9007199254740992`, the sum `9007199254740992 + 1` is computed in
binary64 and is `9007199254740992` again, so after the successful add two
items carry the same id. -/
theorem addTodo_id_duplicate :
    (({ initialState none with
        allTodos := [⟨1, 9007199254740992, "a", false⟩]
        newTodoTitle := "milk" } : State).allTodos.map (fun t => t.id)).Nodup
    ∧ (addTodo tagCodec refEngine (.resolved true (.ok ⟨1, 201, "milk", false⟩))
        { initialState none with
          allTodos := [⟨1, 9007199254740992, "a", false⟩]
          newTodoTitle := "milk" }).allTodos.map (fun t => t.id)
      = [9007199254740992, 9007199254740992] := by
  constructor
  · decide
  · rw [addTodo_ok_allTodos tagCodec refEngine _ _ (by decide) (by decide)]
    decide

/-- C6, amended. For every collection whose ids are pairwise distinct and of
magnitude below `2 ^ 53`, after an `addTodo` whose remote create call
succeeded the ids are still pairwise distinct. When the collection has no
more items than the engine accepts as arguments of one call, the new item is
first and its id is greater than every existing id, namely `1` for the
empty collection and otherwise one more than the id of some existing item,
whatever id the server body carried. -/
theorem addTodo_ids_nodup (J : JSONApi) (E : Engine) (s : State) (newTodo : Todo)
    (h : jsTrim s.newTodoTitle ≠ "")
    (hu : (s.allTodos.map (fun t => t.id)).Nodup)
    (hs : ∀ t ∈ s.allTodos, t.id.natAbs < 2 ^ 53) :
    ((addTodo J E (.resolved true (.ok newTodo)) s).allTodos.map (fun t => t.id)).Nodup
    ∧ (s.allTodos.length ≤ E.maxArguments →
        ((addTodo J E (.resolved true (.ok newTodo)) s).allTodos.map (fun t => t.id)).head?
          = some (computedId s.allTodos))
    ∧ (∀ t ∈ s.allTodos, t.id < computedId s.allTodos)
    ∧ (s.allTodos = [] → computedId s.allTodos = 1)
    ∧ (s.allTodos ≠ [] → ∃ t ∈ s.allTodos, computedId s.allTodos = t.id + 1) := by
  refine ⟨?_, ?_, lt_computedId s.allTodos hs, ?_, computedId_eq_succ_mem s.allTodos hs⟩
  · by_cases hlen : s.allTodos.length ≤ E.maxArguments
    · rw [addTodo_ok_allTodos J E s newTodo h hlen, List.map_cons, List.nodup_cons]
      refine ⟨?_, hu⟩
      intro hm
      obtain ⟨t, ht, e'⟩ := List.mem_map.mp hm
      have := lt_computedId s.allTodos hs t ht
      simp only [] at e'
      omega
    · rw [(addTodo_too_long J E s newTodo h (by omega)).1]
      exact hu
  · intro hlen
    rw [addTodo_ok_allTodos J E s newTodo h hlen]; rfl
  · intro h0; rw [h0]; rfl

theorem addTodo_ids_nodup_witness :
    ((addTodo tagCodec refEngine (.resolved true (.ok ⟨1, 3, "milk", false⟩))
        { initialState none with
          allTodos := [⟨1, 7, "a", false⟩, ⟨1, 3, "b", true⟩]
          newTodoTitle := "milk" }).allTodos.map (fun t => t.id)).Nodup :=
  (addTodo_ids_nodup tagCodec refEngine
    { initialState none with
      allTodos := [⟨1, 7, "a", false⟩, ⟨1, 3, "b", true⟩], newTodoTitle := "milk" }
    ⟨1, 3, "milk", false⟩ (by decide) (by decide) (by decide)).1

/-- C7. For every state, when the remote call of a mutation answers with a
non-success status, `addTodo`, `deleteTodo`, `toggleComplete` and `saveEdit`
leave the full collection, the visible slice, the cache, the current page
and the editing state as they were, and store the error message. (For
`addTodo` and `saveEdit` the call is issued only when the text is non-blank.) -/
theorem mutation_failure_unchanged (J : JSONApi) (E : Engine) (s : State) (id : Int)
    (completed : Bool)
    (jt : Except String Todo) (ju : Except String Unit) :
    (jsTrim s.newTodoTitle ≠ "" →
      Unchanged s (addTodo J E (.resolved false jt) s)
      ∧ (addTodo J E (.resolved false jt) s).error = some "Failed to add todo")
    ∧ (Unchanged s (deleteTodo (.resolved false ju) id s)
      ∧ (deleteTodo (.resolved false ju) id s).error = some "Failed to delete todo")
    ∧ (Unchanged s (toggleComplete (.resolved false ju) id completed s)
      ∧ (toggleComplete (.resolved false ju) id completed s).error
          = some "Failed to update todo")
    ∧ (jsTrim s.editText ≠ "" →
      Unchanged s (saveEdit (.resolved false ju) id s)
      ∧ (saveEdit (.resolved false ju) id s).error = some "Failed to update todo") := by
  refine ⟨?_, ?_, ?_, ?_⟩
  · intro h
    have ht : truthy (jsTrim s.newTodoTitle) = true := (truthy_eq_true_iff _).2 h
    simp [addTodo, ht, mutationFailed, showNotification, Unchanged]
  · simp [deleteTodo, mutationFailed, showNotification, Unchanged]
  · simp [toggleComplete, mutationFailed, showNotification, Unchanged]
  · intro h
    have ht : truthy (jsTrim s.editText) = true := (truthy_eq_true_iff _).2 h
    simp [saveEdit, ht, mutationFailed, showNotification, Unchanged]

theorem mutation_failure_unchanged_witness :
    (addTodo tagCodec refEngine (.resolved false (.error "no body"))
        { initialState none with newTodoTitle := "milk", editText := "tea" }).error
      = some "Failed to add todo"
    ∧ (saveEdit (.resolved false (.ok ())) 4
        { initialState none with newTodoTitle := "milk", editText := "tea" }).error
      = some "Failed to update todo" :=
  ⟨((mutation_failure_unchanged tagCodec refEngine
      { initialState none with newTodoTitle := "milk", editText := "tea" } 4 false
      (.error "no body") (.ok ())).1 (by decide)).2,
   ((mutation_failure_unchanged tagCodec refEngine
      { initialState none with newTodoTitle := "milk", editText := "tea" } 4 false
      (.error "no body") (.ok ())).2.2.2 (by decide)).2⟩

/-! ## Startup and the cache -/

/-- C8, as stated, fails for the empty collection: after saving `[]`, a
startup whose remote fetch succeeds with one task ends with a non-empty full
collection. -/
theorem startup_saved_empty_refetched :
    (startup tagCodec refEngine (some (tagCodec.stringify []))
        (.resolved true (.ok [⟨1, 1, "A", false⟩]))).allTodos ≠ [] := by
  decide

/-- C8, amended. With `JSON.parse` inverting `JSON.stringify` and stringified
lists being non-empty strings: for every non-empty collection, saving it and
then running the startup load yields a full collection identical to the one
saved, issues no remote call and leaves the cache as saved. For the empty
collection the startup load falls through to the remote fetch, and the full
collection is the fetched list when that succeeds and empty otherwise. -/
theorem startup_after_save (J : JSONApi) (E : Engine)
    (hparse : ∀ xs, J.parse (J.stringify xs) = .ok xs)
    (hne : ∀ xs, J.stringify xs ≠ "")
    (xs : List Todo) (resp : Fetch (List Todo)) :
    (xs ≠ [] →
      (startup J E (some (J.stringify xs)) resp).allTodos = xs
      ∧ (startup J E (some (J.stringify xs)) resp).requests = []
      ∧ (startup J E (some (J.stringify xs)) resp).localStorage = some (J.stringify xs))
    ∧ (xs = [] →
      (startup J E (some (J.stringify xs)) resp).requests = [Request.getTodos]
      ∧ (startup J E (some (J.stringify xs)) resp).allTodos =
          match resp with
          | .resolved true (.ok data) => data
          | _ => []) := by
  have ht : truthy (J.stringify xs) = true := (truthy_eq_true_iff _).2 (hne xs)
  constructor
  · intro hx
    have hl : 0 < xs.length := List.length_pos.mpr hx
    simp [startup, pageEffect, fetchTodos, mountEffect, initialState, ht, hparse, hl]
  · intro hx
    subst hx
    have ht0 : truthy (J.stringify []) = true := ht
    rcases resp with m | ⟨_ | _, _ | data⟩ <;>
      simp [startup, pageEffect, fetchTodos, mountEffect, initialState, ht0, hparse,
        fetchRemote, fetchTodosFailed, showNotification]
    by_cases hq : E.storageAccepts (J.stringify data) = true <;> simp [hq]

theorem startup_after_save_witness :
    (startup tagCodec refEngine (some (tagCodec.stringify [⟨1, 2, "B", true⟩]))
        (.resolved true (.ok [⟨1, 1, "A", false⟩]))).allTodos = [⟨1, 2, "B", true⟩] :=
  ((startup_after_save tagCodec refEngine tagCodec_parse_stringify tagCodec_stringify_ne_empty
    [⟨1, 2, "B", true⟩] (.resolved true (.ok [⟨1, 1, "A", false⟩]))).1 (by decide)).1

/-- C9, what the code does. For every non-empty stored value that fails to
parse, the startup load ends with the parse error stored as the error
message and the failure notification shown, without having issued the
remote fetch: the full collection is empty and the cache still holds the
malformed value. -/
theorem startup_malformed_cache (J : JSONApi) (E : Engine) (stored message : String)
    (resp : Fetch (List Todo))
    (hs : stored ≠ "") (hp : J.parse stored = .error message) :
    (startup J E (some stored) resp).error = some message
    ∧ (startup J E (some stored) resp).notification
        = { shown := true, message := "Failed to load todos", type := "error" }
    ∧ (startup J E (some stored) resp).requests = []
    ∧ (startup J E (some stored) resp).allTodos = []
    ∧ (startup J E (some stored) resp).localStorage = some stored := by
  have ht : truthy stored = true := (truthy_eq_true_iff _).2 hs
  simp [startup, pageEffect, fetchTodos, mountEffect, initialState, ht, hp,
    fetchTodosFailed, showNotification]

theorem startup_malformed_cache_witness :
    (startup tagCodec refEngine (some "[oops") (.resolved true (.ok [⟨1, 1, "A", false⟩]))).error
      = some "Unexpected token"
    ∧ (startup tagCodec refEngine (some "[oops") (.resolved true (.ok [⟨1, 1, "A", false⟩]))).requests
      = []
    ∧ (startup tagCodec refEngine (some "[oops") (.resolved true (.ok [⟨1, 1, "A", false⟩]))).allTodos
      = [] :=
  have h := startup_malformed_cache tagCodec refEngine "[oops" "Unexpected token"
    (.resolved true (.ok [⟨1, 1, "A", false⟩])) (by decide) (by rfl)
  ⟨h.1, h.2.2.1, h.2.2.2.1⟩

/-! ## Updates of the visible slice -/

/-- C10, as stated, fails when two items of the slice share an id and differ
in their flag: pressing the toggle of the first item (id `1`, flag `false`)
leaves the second item (id `1`, flag `true`) with its flag `true`. -/
theorem toggleComplete_same_id_not_flipped :
    ({ initialState none with
        todos := [⟨1, 1, "A", false⟩, ⟨1, 1, "B", true⟩] }).todos[1]?
      = some ⟨1, 1, "B", true⟩
    ∧ (toggleComplete (.resolved true (.ok ())) 1 false
        { initialState none with
          todos := [⟨1, 1, "A", false⟩, ⟨1, 1, "B", true⟩] }).todos[1]?
      = some ⟨1, 1, "B", true⟩ := by
  decide

/-- C10, amended. For every state and every id, when the remote update call
succeeds, `toggleComplete id completed` sets the completed flag of the items
with that id in the visible slice to `!completed`, which flips every such
item whose flag is `completed` (the markup passes the flag of the pressed
item), and `saveEdit`, with non-blank edit text, replaces the title of the
items with that id by the edit text. Every other item and every other
field, the length and order of the slice, the full collection and the
cache are unchanged. -/
theorem update_slice_only (s : State) (id : Int) (completed : Bool)
    (json : Except String Unit) :
    ((toggleComplete (.resolved true json) id completed s).todos.length = s.todos.length
      ∧ (∀ i : Nat, (toggleComplete (.resolved true json) id completed s).todos[i]?
          = (s.todos[i]?).map
              (fun t => if t.id = id then { t with completed := !completed } else t))
      ∧ (∀ (i : Nat) (t : Todo), s.todos[i]? = some t → t.id = id → t.completed = completed →
          ((toggleComplete (.resolved true json) id completed s).todos[i]?).map
            (fun u => u.completed) = some (!t.completed))
      ∧ (toggleComplete (.resolved true json) id completed s).allTodos = s.allTodos
      ∧ (toggleComplete (.resolved true json) id completed s).localStorage = s.localStorage)
    ∧ (jsTrim s.editText ≠ "" →
      (saveEdit (.resolved true json) id s).todos.length = s.todos.length
      ∧ (∀ i : Nat, (saveEdit (.resolved true json) id s).todos[i]?
          = (s.todos[i]?).map
              (fun t => if t.id = id then { t with title := s.editText } else t))
      ∧ (saveEdit (.resolved true json) id s).allTodos = s.allTodos
      ∧ (saveEdit (.resolved true json) id s).localStorage = s.localStorage) := by
  constructor
  · refine ⟨?_, ?_, ?_, rfl, rfl⟩
    · simp [toggleComplete, showNotification]
    · intro i
      simp [toggleComplete, showNotification]
    · intro i t hi hid hc
      simp [toggleComplete, showNotification, hi, hid, hc]
  · intro h
    have ht : truthy (jsTrim s.editText) = true := (truthy_eq_true_iff _).2 h
    refine ⟨?_, ?_, ?_, ?_⟩
    · simp [saveEdit, ht, showNotification]
    · intro i
      simp [saveEdit, ht, showNotification]
    · simp [saveEdit, ht, showNotification]
    · simp [saveEdit, ht, showNotification]

theorem update_slice_only_witness :
    (saveEdit (.resolved true (.ok ())) 2
        { initialState none with
          todos := [⟨1, 1, "A", false⟩, ⟨1, 2, "B", true⟩], editText := "tea" }).todos[1]?
      = some ⟨1, 2, "tea", true⟩ := by
  rw [((update_slice_only
    { initialState none with
      todos := [⟨1, 1, "A", false⟩, ⟨1, 2, "B", true⟩], editText := "tea" }
    2 false (.ok ())).2 (by decide)).2.1 1]
  rfl

end TodoList
